import Mathlib

/-!
Verification development for the Prophet Trader position & risk management
engine.  The configuration loader (`config.Load`) and the Alpaca data
service (`parseTimeframe`, `GetPositions`) are embedded directly from the
Go sources.  The Position Manager and Risk Policy evaluator are called
from `cmd/bot/main.go` but their implementation files are not part of the
source snapshot, so those components are modelled from the specification
(§3, §4.1, §4.2) and all results about them are relative to that model.

Prices, percentages and timestamps are modelled as rationals (`ℚ`);
registries and logs as lists.
-/

namespace Prophet

/-- Position lifecycle status (spec §3); `open` is a Lean keyword, so the
first state is called `opened`. -/
inductive PositionStatus where
  | opened
  | partiallyClosed
  | closed
deriving DecidableEq, Repr

/-- Side of a position (spec §3). -/
inductive Side where
  | long
  | short
deriving DecidableEq, Repr

/-- Asset class of a position (spec §3). -/
inductive AssetClass where
  | equity
  | option
deriving DecidableEq, Repr

/-- Position category (spec §3). -/
inductive Category where
  | swing
  | scalp
deriving DecidableEq, Repr

/-- Modelled from the spec: `ManagedPosition` (§3), the unit the engine
owns.  The implementation file defining it is not in the source snapshot;
fields follow the spec's data model, with times as rationals. -/
structure ManagedPosition where
  id : Nat
  symbol : String
  assetClass : AssetClass
  side : Side
  quantity : ℚ
  entryPrice : ℚ
  entryTimestamp : ℚ
  category : Category
  stopLossPct : ℚ
  takeProfitPct : ℚ
  maxHoldUntil : Option ℚ
  status : PositionStatus
  lastEvaluatedAt : Option ℚ
  lastKnownPrice : Option ℚ
deriving DecidableEq, Repr

/-- Modelled from the spec: `RiskPolicyConfig` (§3), loaded once and
read-only for the engine's lifetime. -/
structure RiskPolicyConfig where
  maxPositionPctOfPortfolio : ℚ
  maxSectorPctOfPortfolio : ℚ
  maxOpenPositions : Nat
  maxDailyLossPct : ℚ
  stopLossDefaultPct : ℚ
  partialTakeProfitPct : ℚ
  fullTakeProfitPct : ℚ
  scalpMaxDTE : Nat
  swingMinDTE : Nat
  swingMaxDTE : Nat
  revengeCooldownMinutes : ℚ
deriving DecidableEq, Repr

/-- Modelled from the spec: the `Decision` produced by the Risk Policy
(§4.1).  `blocked` only arises from proposed-entry evaluation. -/
inductive Decision where
  | hold
  | partialExit (fraction : ℚ)
  | fullExit (reason : String)
  | blocked (reason : String)
deriving DecidableEq, Repr

/-- Whether a decision is a partial exit. -/
def Decision.isPartialExit : Decision → Bool
  | .partialExit _ => true
  | _ => false

/-- Whether a decision is a full exit. -/
def Decision.isFullExit : Decision → Bool
  | .fullExit _ => true
  | _ => false

/-- Whether a decision blocks a proposed entry. -/
def Decision.isBlocked : Decision → Bool
  | .blocked _ => true
  | _ => false

/-- Modelled from the spec: unrealized PL% is
`(currentPrice - entryPrice) / entryPrice` for long, negated for short
(§4.1), the single source of truth for rules 3–5. -/
def unrealizedPLPct (side : Side) (entryPrice currentPrice : ℚ) : ℚ :=
  match side with
  | .long => (currentPrice - entryPrice) / entryPrice
  | .short => -((currentPrice - entryPrice) / entryPrice)

/-- Modelled from the spec: rule 2's trigger — options only, fire once
`now ≥ maxHoldUntil` (§4.1). -/
def timeStopHit (p : ManagedPosition) (now : ℚ) : Bool :=
  match p.assetClass, p.maxHoldUntil with
  | AssetClass.option, some t => decide (t ≤ now)
  | _, _ => false

/-- Modelled from the spec: the Risk Policy position evaluator (§4.1),
rules in the fixed order 1 daily circuit breaker, 2 time stop, 3 hard
stop-loss, 4 full take-profit, 5 partial take-profit, 6 hold; first match
wins.  The implementation file is not in the source snapshot.
`portfolioValue`, `openPositions` and `sectorExposure` belong to the
spec's contract but are not consulted by the per-position rules. -/
def Evaluate (cfg : RiskPolicyConfig) (position : ManagedPosition)
    (currentPrice portfolioValue : ℚ) (openPositions : Nat)
    (sectorExposure dayPLPct now : ℚ) : Decision :=
  if dayPLPct ≤ -cfg.maxDailyLossPct then
    Decision.fullExit "daily_loss_limit"
  else if timeStopHit position now then
    Decision.fullExit "time_stop"
  else if unrealizedPLPct position.side position.entryPrice currentPrice
      ≤ -position.stopLossPct then
    Decision.fullExit "stop_loss"
  else if cfg.fullTakeProfitPct
      ≤ unrealizedPLPct position.side position.entryPrice currentPrice then
    Decision.fullExit "take_profit"
  else if cfg.partialTakeProfitPct
        ≤ unrealizedPLPct position.side position.entryPrice currentPrice
      ∧ position.status = PositionStatus.opened then
    Decision.partialExit (1/2)
  else
    Decision.hold

/-- Modelled from the spec: a proposed trade submitted to entry
evaluation (§4.1). -/
structure ProposedTrade where
  symbol : String
  sector : String
  proposedValue : ℚ
deriving DecidableEq, Repr

/-- Modelled from the spec: the proposed-entry evaluator (§4.1 entry
rules, §8 "circuit breaker, once tripped, blocks every subsequent
EvaluateEntry call", scenario D).  The daily circuit breaker is checked
first and dominates; then the four entry rules in their fixed order.
`minutesSinceSameSymbolExit` is `none` when no same-symbol exit is on
record. -/
def EvaluateEntry (cfg : RiskPolicyConfig) (proposed : ProposedTrade)
    (portfolioValue : ℚ) (openPositions : Nat) (sectorExposure dayPLPct : ℚ)
    (minutesSinceSameSymbolExit : Option ℚ) : Decision :=
  if dayPLPct ≤ -cfg.maxDailyLossPct then
    Decision.blocked "daily_loss_limit"
  else if cfg.maxOpenPositions ≤ openPositions then
    Decision.blocked "max_positions"
  else if cfg.maxPositionPctOfPortfolio
      < proposed.proposedValue / portfolioValue then
    Decision.blocked "position_size"
  else if cfg.maxSectorPctOfPortfolio
      < (sectorExposure + proposed.proposedValue) / portfolioValue then
    Decision.blocked "sector_concentration"
  else if (match minutesSinceSameSymbolExit with
           | some m => decide (m ≤ cfg.revengeCooldownMinutes)
           | none => false) then
    Decision.blocked "cooldown"
  else
    Decision.hold

/-- The policy configuration used by the spec's concrete scenarios:
`maxDailyLossPct = 0.05`, `stopLossDefaultPct = 0.15`,
`partialTakeProfitPct = 0.25`, `fullTakeProfitPct = 0.50`,
`maxPositionPctOfPortfolio = 0.15`, `maxSectorPctOfPortfolio = 0.40`,
`maxOpenPositions = 10`, cooldown 120 minutes. -/
def scenarioConfig : RiskPolicyConfig where
  maxPositionPctOfPortfolio := 15/100
  maxSectorPctOfPortfolio := 40/100
  maxOpenPositions := 10
  maxDailyLossPct := 5/100
  stopLossDefaultPct := 15/100
  partialTakeProfitPct := 25/100
  fullTakeProfitPct := 50/100
  scalpMaxDTE := 5
  swingMinDTE := 50
  swingMaxDTE := 120
  revengeCooldownMinutes := 120

/-- The position of spec scenario A: long equity, `entryPrice = 10`,
`stopLossPct = 0.15`, status open. -/
def scenarioPosition : ManagedPosition where
  id := 1
  symbol := "SPY"
  assetClass := AssetClass.equity
  side := Side.long
  quantity := 100
  entryPrice := 10
  entryTimestamp := 0
  category := Category.swing
  stopLossPct := 15/100
  takeProfitPct := 50/100
  maxHoldUntil := none
  status := PositionStatus.opened
  lastEvaluatedAt := none
  lastKnownPrice := none

/-- C1: whenever `dayPLPct ≤ -maxDailyLossPct`, `Evaluate` returns
`FullExit("daily_loss_limit")` for every position regardless of every
other rule condition, and `EvaluateEntry` returns `Blocked`: the daily
circuit breaker is checked first and dominates all other rules. -/
theorem evaluate_daily_circuit_breaker_dominates
    (cfg : RiskPolicyConfig) (position : ManagedPosition)
    (currentPrice portfolioValue : ℚ) (openPositions : Nat)
    (sectorExposure dayPLPct now : ℚ) (proposed : ProposedTrade)
    (cooldown : Option ℚ)
    (h : dayPLPct ≤ -cfg.maxDailyLossPct) :
    Evaluate cfg position currentPrice portfolioValue openPositions
        sectorExposure dayPLPct now = Decision.fullExit "daily_loss_limit"
    ∧ EvaluateEntry cfg proposed portfolioValue openPositions
        sectorExposure dayPLPct cooldown
        = Decision.blocked "daily_loss_limit" := by
  constructor
  · simp [Evaluate, h]
  · simp [EvaluateEntry, h]

/-- Witness for C1 at spec scenario D: `dayPLPct = -5.2%`,
`maxDailyLossPct = 0.05`. -/
theorem evaluate_daily_circuit_breaker_dominates_witness :
    Evaluate scenarioConfig scenarioPosition 12 100000 3 0 (-52/1000) 0
        = Decision.fullExit "daily_loss_limit"
    ∧ EvaluateEntry scenarioConfig ⟨"SPY", "Broad Market", 1000⟩ 100000 3 0
        (-52/1000) none = Decision.blocked "daily_loss_limit" :=
  evaluate_daily_circuit_breaker_dominates scenarioConfig scenarioPosition
    12 100000 3 0 (-52/1000) 0 ⟨"SPY", "Broad Market", 1000⟩ none
    (by norm_num [scenarioConfig])

/-- C2: whenever the unrealized PL% of a position is `≤ -stopLossPct`,
`Evaluate` returns a `FullExit` decision regardless of every other rule's
state; and when neither the daily circuit breaker nor the time stop has
fired, the reason is exactly `"stop_loss"`. -/
theorem evaluate_stop_loss_always_full_exit
    (cfg : RiskPolicyConfig) (position : ManagedPosition)
    (currentPrice portfolioValue : ℚ) (openPositions : Nat)
    (sectorExposure dayPLPct now : ℚ)
    (h : unrealizedPLPct position.side position.entryPrice currentPrice
          ≤ -position.stopLossPct) :
    (∃ r, Evaluate cfg position currentPrice portfolioValue openPositions
        sectorExposure dayPLPct now = Decision.fullExit r)
    ∧ (¬ dayPLPct ≤ -cfg.maxDailyLossPct → timeStopHit position now = false →
        Evaluate cfg position currentPrice portfolioValue openPositions
          sectorExposure dayPLPct now = Decision.fullExit "stop_loss") := by
  constructor
  · unfold Evaluate
    split_ifs with h1 h2
    · exact ⟨"daily_loss_limit", rfl⟩
    · exact ⟨"time_stop", rfl⟩
    · exact ⟨"stop_loss", rfl⟩
  · intro hday htime
    simp [Evaluate, hday, htime, h]

/-- Witness for C2 at spec scenario A: long position, `entryPrice = 10`,
`stopLossPct = 0.15`, price `8.40` (PL% = −16%) → `FullExit("stop_loss")`. -/
theorem evaluate_stop_loss_always_full_exit_witness :
    Evaluate scenarioConfig scenarioPosition (42/5) 100000 3 0 0 0
      = Decision.fullExit "stop_loss" :=
  (evaluate_stop_loss_always_full_exit scenarioConfig scenarioPosition
      (42/5) 100000 3 0 0 0
      (by norm_num [unrealizedPLPct, scenarioPosition])).2
    (by norm_num [scenarioConfig]) (by rfl)

/-- Modelled from the spec: the rule chain of §4.1 applied to an
already-computed unrealized PL% value, used to show that `Evaluate`
consumes the current price only through the single PL formula. -/
def EvaluateGivenPL (cfg : RiskPolicyConfig) (position : ManagedPosition)
    (pl dayPLPct now : ℚ) : Decision :=
  if dayPLPct ≤ -cfg.maxDailyLossPct then
    Decision.fullExit "daily_loss_limit"
  else if timeStopHit position now then
    Decision.fullExit "time_stop"
  else if pl ≤ -position.stopLossPct then
    Decision.fullExit "stop_loss"
  else if cfg.fullTakeProfitPct ≤ pl then
    Decision.fullExit "take_profit"
  else if cfg.partialTakeProfitPct ≤ pl
      ∧ position.status = PositionStatus.opened then
    Decision.partialExit (1/2)
  else
    Decision.hold

/-- Alpaca SDK position fields consumed by `GetPositions`
(src/unnamed/part_001, services package). -/
structure AlpacaPosition where
  symbol : String
  qty : ℚ
  avgEntryPrice : ℚ
  marketValue : ℚ
  costBasis : ℚ
  unrealizedPL : ℚ
  unrealizedIntradayPLPC : ℚ
  currentPrice : ℚ
  side : String
deriving DecidableEq, Repr

/-- `interfaces.Position`, the broker-facing position record produced by
`GetPositions` (src/unnamed/part_001). -/
structure BrokerPosition where
  symbol : String
  qty : ℚ
  avgEntryPrice : ℚ
  marketValue : ℚ
  costBasis : ℚ
  unrealizedPL : ℚ
  unrealizedPLPC : ℚ
  currentPrice : ℚ
  side : String
deriving DecidableEq, Repr

/-- Embedding of the per-position field mapping inside `GetPositions`
(src/unnamed/part_001 lines 150–163): note `UnrealizedPLPC` is filled
from the broker's intraday-only `UnrealizedIntradayPLPC`. -/
def convertAlpacaPosition (ap : AlpacaPosition) : BrokerPosition where
  symbol := ap.symbol
  qty := ap.qty
  avgEntryPrice := ap.avgEntryPrice
  marketValue := ap.marketValue
  costBasis := ap.costBasis
  unrealizedPL := ap.unrealizedPL
  unrealizedPLPC := ap.unrealizedIntradayPLPC
  currentPrice := ap.currentPrice
  side := ap.side

/-- C4: the PL% consumed by rules 3–5 equals
`(currentPrice - entryPrice) / entryPrice` for long positions and its
negation for short ones, and `Evaluate` factors through this single
formula — the current price enters the rules only via `unrealizedPLPct`,
so no other PL figure (in particular not the broker's intraday
`UnrealizedPLPC` field, which `GetPositions` fills from
`UnrealizedIntradayPLPC`) is consumed by them. -/
theorem evaluate_single_pl_formula :
    (∀ e c : ℚ, unrealizedPLPct Side.long e c = (c - e) / e)
    ∧ (∀ e c : ℚ, unrealizedPLPct Side.short e c = -((c - e) / e))
    ∧ (∀ (cfg : RiskPolicyConfig) (position : ManagedPosition)
        (currentPrice portfolioValue : ℚ) (openPositions : Nat)
        (sectorExposure dayPLPct now : ℚ),
        Evaluate cfg position currentPrice portfolioValue openPositions
            sectorExposure dayPLPct now
          = EvaluateGivenPL cfg position
              (unrealizedPLPct position.side position.entryPrice currentPrice)
              dayPLPct now)
    ∧ (∀ ap : AlpacaPosition,
        (convertAlpacaPosition ap).unrealizedPLPC
          = ap.unrealizedIntradayPLPC) :=
  ⟨fun _ _ => rfl, fun _ _ => rfl, fun _ _ _ _ _ _ _ _ => rfl, fun _ => rfl⟩

/-- Modelled from the spec: the effect of acting on a Risk Policy
decision for one position (§4.2 state machine): a partial exit closes the
given fraction and marks the position `partially_closed`; any full exit
closes it; hold (and the entry-only `blocked`) leave it unchanged. -/
def applyDecision (p : ManagedPosition) (d : Decision) : ManagedPosition :=
  match d with
  | .hold => p
  | .blocked _ => p
  | .partialExit f =>
      { p with status := PositionStatus.partiallyClosed,
               quantity := p.quantity * (1 - f) }
  | .fullExit _ => { p with status := PositionStatus.closed }

/-- The per-tick market inputs a monitor iteration feeds to `Evaluate`. -/
structure TickInput where
  price : ℚ
  portfolioValue : ℚ
  openPositions : Nat
  sectorExposure : ℚ
  dayPLPct : ℚ
  now : ℚ
deriving DecidableEq, Repr

/-- Modelled from the spec: one evaluate-and-act monitor step for a
single position (§4.2 `MonitorPositions`). -/
def evalStep (cfg : RiskPolicyConfig) (p : ManagedPosition)
    (t : TickInput) : ManagedPosition × Decision :=
  let d := Evaluate cfg p t.price t.portfolioValue t.openPositions
    t.sectorExposure t.dayPLPct t.now
  (applyDecision
    { p with lastEvaluatedAt := some t.now, lastKnownPrice := some t.price }
    d, d)

/-- Modelled from the spec: the monitor loop restricted to one position —
evaluate and act on every tick in sequence, collecting the decisions. -/
def runTicks (cfg : RiskPolicyConfig) (p : ManagedPosition) :
    List TickInput → ManagedPosition × List Decision
  | [] => (p, [])
  | t :: ts =>
    let s := evalStep cfg p t
    let rest := runTicks cfg s.1 ts
    (rest.1, s.2 :: rest.2)

/-- `Evaluate` only produces a partial exit when the position's status is
`open` (rule 5's guard). -/
theorem evaluate_partial_requires_open (cfg : RiskPolicyConfig)
    (p : ManagedPosition) (currentPrice portfolioValue : ℚ)
    (openPositions : Nat) (sectorExposure dayPLPct now : ℚ)
    (h : p.status ≠ PositionStatus.opened) :
    (Evaluate cfg p currentPrice portfolioValue openPositions
      sectorExposure dayPLPct now).isPartialExit = false := by
  unfold Evaluate
  split_ifs with h1 h2 h3 h4 h5
  · rfl
  · rfl
  · rfl
  · rfl
  · exact absurd h5.2 h
  · rfl

/-- Witness for `evaluate_partial_requires_open` on a concrete
partially-closed position. -/
theorem evaluate_partial_requires_open_witness :
    (Evaluate scenarioConfig
      { scenarioPosition with status := PositionStatus.partiallyClosed }
      13 100000 3 0 0 0).isPartialExit = false :=
  evaluate_partial_requires_open scenarioConfig
    { scenarioPosition with status := PositionStatus.partiallyClosed }
    13 100000 3 0 0 0 (by decide)

/-- `applyDecision` never returns a position to the `open` status. -/
theorem applyDecision_not_opened (p : ManagedPosition) (d : Decision)
    (h : p.status ≠ PositionStatus.opened) :
    (applyDecision p d).status ≠ PositionStatus.opened := by
  cases d with
  | hold => exact h
  | blocked _ => exact h
  | partialExit _ => simp [applyDecision]
  | fullExit _ => simp [applyDecision]

/-- Witness for `applyDecision_not_opened` at a concrete input. -/
theorem applyDecision_not_opened_witness :
    (applyDecision
      { scenarioPosition with status := PositionStatus.closed }
      Decision.hold).status ≠ PositionStatus.opened :=
  applyDecision_not_opened
    { scenarioPosition with status := PositionStatus.closed }
    Decision.hold (by decide)

/-- A position that is no longer `open` never receives another partial
exit over any remaining sequence of monitor ticks. -/
theorem runTicks_no_partial_of_not_opened (cfg : RiskPolicyConfig)
    (ts : List TickInput) (p : ManagedPosition)
    (h : p.status ≠ PositionStatus.opened) :
    ((runTicks cfg p ts).2.countP (fun d => d.isPartialExit)) = 0 := by
  induction ts generalizing p with
  | nil => simp [runTicks]
  | cons t ts ih =>
    rw [runTicks]
    simp only [evalStep, List.countP_cons]
    rw [evaluate_partial_requires_open cfg p t.price t.portfolioValue
      t.openPositions t.sectorExposure t.dayPLPct t.now h]
    simp only [Bool.false_eq_true, if_false, Nat.add_zero]
    exact ih _ (applyDecision_not_opened
      { p with lastEvaluatedAt := some t.now, lastKnownPrice := some t.price }
      _ h)

/-- Witness for `runTicks_no_partial_of_not_opened` at a concrete
partially-closed position and one tick. -/
theorem runTicks_no_partial_of_not_opened_witness :
    ((runTicks scenarioConfig
      { scenarioPosition with status := PositionStatus.partiallyClosed }
      [⟨13, 100000, 3, 0, 0, 0⟩]).2.countP
        (fun d => d.isPartialExit)) = 0 :=
  runTicks_no_partial_of_not_opened scenarioConfig
    [⟨13, 100000, 3, 0, 0, 0⟩]
    { scenarioPosition with status := PositionStatus.partiallyClosed }
    (by decide)

/-- Acting on a partial-exit decision leaves the `open` status behind. -/
theorem applyDecision_partial_not_opened (p : ManagedPosition)
    (d : Decision) (h : d.isPartialExit = true) :
    (applyDecision p d).status ≠ PositionStatus.opened := by
  cases d with
  | hold => simp [Decision.isPartialExit] at h
  | blocked r => simp [Decision.isPartialExit] at h
  | fullExit r => simp [applyDecision]
  | partialExit f => simp [applyDecision]

/-- Witness for `applyDecision_partial_not_opened` at a concrete input. -/
theorem applyDecision_partial_not_opened_witness :
    (applyDecision scenarioPosition
      (Decision.partialExit (1/2))).status ≠ PositionStatus.opened :=
  applyDecision_partial_not_opened scenarioPosition
    (Decision.partialExit (1/2)) (by decide)

/-- C3: over any sequence of monitor-loop evaluations of one position —
whatever the prices, day PL and times on each tick — at most one
`PartialExit` decision is ever produced: once the partial take-profit
fires the status leaves `open` permanently and rule 5 is skipped on every
later evaluation. -/
theorem runTicks_at_most_one_partial_exit (cfg : RiskPolicyConfig)
    (p : ManagedPosition) (ts : List TickInput) :
    ((runTicks cfg p ts).2.countP (fun d => d.isPartialExit)) ≤ 1 := by
  induction ts generalizing p with
  | nil => simp [runTicks]
  | cons t ts ih =>
    rw [runTicks]
    simp only [List.countP_cons]
    by_cases hpart : (evalStep cfg p t).2.isPartialExit = true
    · rw [if_pos (by simp [hpart])]
      have hstat : (evalStep cfg p t).1.status ≠ PositionStatus.opened := by
        simp only [evalStep] at hpart ⊢
        exact applyDecision_partial_not_opened
          { p with lastEvaluatedAt := some t.now,
                   lastKnownPrice := some t.price } _ hpart
      rw [runTicks_no_partial_of_not_opened cfg ts _ hstat]
    · rw [if_neg (by simpa using hpart)]
      simpa using ih (evalStep cfg p t).1

/-- Modelled from the spec: `PositionSnapshot` (§3), the immutable
append-only record written when the engine acts. -/
structure PositionSnapshot where
  positionID : Nat
  timestamp : ℚ
  price : ℚ
  unrealizedPLPct : ℚ
  action : String
deriving DecidableEq, Repr

/-- Modelled from the spec: the Position Manager's error taxonomy (§7)
as far as the claims need it. -/
inductive EngineError where
  | validationError (msg : String)
  | policyViolation (reason : String)
  | notFound
deriving DecidableEq, Repr

/-- Modelled from the spec: the entry request handed to `Place` (§4.2). -/
structure PlaceSpec where
  symbol : String
  sector : String
  assetClass : AssetClass
  side : Side
  quantity : ℚ
  entryPrice : ℚ
  entryTimestamp : ℚ
  category : Category
  stopLossPct : ℚ
  takeProfitPct : ℚ
  maxHoldUntil : Option ℚ
deriving DecidableEq, Repr

/-- Modelled from the spec: the Position Manager's mutable state — the
registry of managed positions, the id counter, and the append-only
snapshot and activity logs (§4.2, §4.3). -/
structure EngineState where
  registry : List ManagedPosition
  nextId : Nat
  snapshots : List PositionSnapshot
  logs : List String
deriving DecidableEq, Repr

/-- Number of not-yet-closed positions in the registry. -/
def openCount (st : EngineState) : Nat :=
  st.registry.countP (fun p => !(p.status = PositionStatus.closed : Bool))

/-- Modelled from the spec: `Place(spec)` (§4.2) — validate the spec
(quantity > 0, non-empty symbol; the category is known by typing), run
`EvaluateEntry`; on `Blocked` fail with `PolicyViolation{reason}` and no
side effect; otherwise persist one new `ManagedPosition` with
`status = open` and return it. -/
def Place (cfg : RiskPolicyConfig) (st : EngineState) (spec : PlaceSpec)
    (portfolioValue sectorExposure dayPLPct : ℚ)
    (minutesSinceSameSymbolExit : Option ℚ) :
    Except EngineError ManagedPosition × EngineState :=
  if ¬ 0 < spec.quantity then
    (Except.error (EngineError.validationError "quantity"), st)
  else if spec.symbol = "" then
    (Except.error (EngineError.validationError "symbol"), st)
  else
    match EvaluateEntry cfg
        ⟨spec.symbol, spec.sector, spec.quantity * spec.entryPrice⟩
        portfolioValue (openCount st) sectorExposure dayPLPct
        minutesSinceSameSymbolExit with
    | Decision.blocked r => (Except.error (EngineError.policyViolation r), st)
    | _ =>
      let p : ManagedPosition :=
        { id := st.nextId
          symbol := spec.symbol
          assetClass := spec.assetClass
          side := spec.side
          quantity := spec.quantity
          entryPrice := spec.entryPrice
          entryTimestamp := spec.entryTimestamp
          category := spec.category
          stopLossPct := spec.stopLossPct
          takeProfitPct := spec.takeProfitPct
          maxHoldUntil := spec.maxHoldUntil
          status := PositionStatus.opened
          lastEvaluatedAt := none
          lastKnownPrice := none }
      (Except.ok p,
        { st with registry := st.registry ++ [p], nextId := st.nextId + 1 })

/-- Closing helper used by `Close`: force the position with the given id
to `closed`, leaving every other position untouched. -/
def closeById (id : Nat) (q : ManagedPosition) : ManagedPosition :=
  if q.id = id then { q with status := PositionStatus.closed } else q

/-- The snapshot recorded by a manual close, built from the position's
last known data. -/
def closeSnapshot (p : ManagedPosition) : PositionSnapshot :=
  { positionID := p.id
    timestamp := p.lastEvaluatedAt.getD 0
    price := p.lastKnownPrice.getD p.entryPrice
    unrealizedPLPct := unrealizedPLPct p.side p.entryPrice
      (p.lastKnownPrice.getD p.entryPrice)
    action := "full_exit" }

/-- Modelled from the spec: `Close(id, reason)` (§4.2) — manual override
forcing full-exit semantics regardless of rule state; `NotFound` for an
unknown id; idempotent: closing an already-closed position is a no-op
success that emits no further snapshot or log entry. -/
def Close (st : EngineState) (id : Nat) (reason : String) :
    Except EngineError Unit × EngineState :=
  match st.registry.find? (fun p => p.id == id) with
  | none => (Except.error EngineError.notFound, st)
  | some p =>
    if p.status = PositionStatus.closed then
      (Except.ok (), st)
    else
      (Except.ok (),
        { st with
          registry := st.registry.map (closeById id)
          snapshots := st.snapshots ++ [closeSnapshot p]
          logs := st.logs ++ ["manual_close:" ++ reason] })

/-- The empty engine state. -/
def emptyEngine : EngineState where
  registry := []
  nextId := 1
  snapshots := []
  logs := []

/-- The proposed entry of spec scenario C: $16,000 of NVDA options
against a $100,000 portfolio. -/
def scenarioSpec : PlaceSpec where
  symbol := "NVDA"
  sector := "Tech"
  assetClass := AssetClass.option
  side := Side.long
  quantity := 100
  entryPrice := 160
  entryTimestamp := 0
  category := Category.swing
  stopLossPct := 15/100
  takeProfitPct := 50/100
  maxHoldUntil := none

/-- A small proposed entry ($1,000 against $100,000) that passes every
entry rule. -/
def smallSpec : PlaceSpec where
  symbol := "SPY"
  sector := "Broad Market"
  assetClass := AssetClass.equity
  side := Side.long
  quantity := 10
  entryPrice := 100
  entryTimestamp := 0
  category := Category.swing
  stopLossPct := 15/100
  takeProfitPct := 50/100
  maxHoldUntil := none

/-- C5: for a validated spec, if entry evaluation yields `Blocked` then
`Place` fails with `PolicyViolation` carrying the blocking reason and
leaves the state untouched (no side effect); if entry evaluation does not
block, `Place` persists exactly one new `ManagedPosition` with
`status = open` and returns it. -/
theorem place_blocked_or_persists (cfg : RiskPolicyConfig)
    (st : EngineState) (spec : PlaceSpec)
    (portfolioValue sectorExposure dayPLPct : ℚ) (cooldown : Option ℚ)
    (hq : 0 < spec.quantity) (hs : spec.symbol ≠ "") :
    (∀ r, EvaluateEntry cfg
        ⟨spec.symbol, spec.sector, spec.quantity * spec.entryPrice⟩
        portfolioValue (openCount st) sectorExposure dayPLPct cooldown
        = Decision.blocked r →
      Place cfg st spec portfolioValue sectorExposure dayPLPct cooldown
        = (Except.error (EngineError.policyViolation r), st))
    ∧ ((EvaluateEntry cfg
        ⟨spec.symbol, spec.sector, spec.quantity * spec.entryPrice⟩
        portfolioValue (openCount st) sectorExposure dayPLPct
        cooldown).isBlocked = false →
      ∃ p, Place cfg st spec portfolioValue sectorExposure dayPLPct cooldown
          = (Except.ok p,
            { st with registry := st.registry ++ [p],
                      nextId := st.nextId + 1 })
        ∧ p.status = PositionStatus.opened ∧ 0 < p.quantity) := by
  constructor
  · intro r hr
    unfold Place
    rw [if_neg (not_not_intro hq), if_neg hs, hr]
  · intro hnb
    unfold Place
    rw [if_neg (not_not_intro hq), if_neg hs]
    cases hE : EvaluateEntry cfg
        ⟨spec.symbol, spec.sector, spec.quantity * spec.entryPrice⟩
        portfolioValue (openCount st) sectorExposure dayPLPct cooldown with
    | hold => exact ⟨_, rfl, rfl, hq⟩
    | partialExit f => exact ⟨_, rfl, rfl, hq⟩
    | fullExit r => exact ⟨_, rfl, rfl, hq⟩
    | blocked r =>
      rw [hE] at hnb
      simp [Decision.isBlocked] at hnb

/-- Witness for C5: spec scenario C ($16,000 against $100,000 with
`maxPositionPctOfPortfolio = 0.15`) is rejected as
`PolicyViolation("position_size")` with no state change, while a $1,000
entry is persisted with status open. -/
theorem place_blocked_or_persists_witness :
    (Place scenarioConfig emptyEngine scenarioSpec 100000 0 0 none
      = (Except.error (EngineError.policyViolation "position_size"),
         emptyEngine))
    ∧ ∃ p, Place scenarioConfig emptyEngine smallSpec 100000 0 0 none
          = (Except.ok p,
            { emptyEngine with
                registry := emptyEngine.registry ++ [p],
                nextId := emptyEngine.nextId + 1 })
        ∧ p.status = PositionStatus.opened ∧ 0 < p.quantity :=
  ⟨(place_blocked_or_persists scenarioConfig emptyEngine scenarioSpec
      100000 0 0 none (by norm_num [scenarioSpec]) (by decide)).1
      "position_size"
      (by norm_num [EvaluateEntry, scenarioConfig, scenarioSpec, openCount,
        emptyEngine]),
   (place_blocked_or_persists scenarioConfig emptyEngine smallSpec
      100000 0 0 none (by norm_num [smallSpec]) (by decide)).2
      (by norm_num [EvaluateEntry, Decision.isBlocked, scenarioConfig,
        smallSpec, openCount, emptyEngine])⟩

/-- `find?` by id commutes with closing one id: `closeById` never
changes ids. -/
theorem find?_map_closeById (id : Nat) (l : List ManagedPosition) :
    (l.map (closeById id)).find? (fun p => p.id == id)
      = (l.find? (fun p => p.id == id)).map (closeById id) := by
  induction l with
  | nil => rfl
  | cons a l ih =>
    simp only [List.map_cons]
    by_cases ha : a.id = id
    · rw [List.find?_cons_of_pos _ (by simp [closeById, ha]),
        List.find?_cons_of_pos _ (by simp [ha])]
      rfl
    · rw [List.find?_cons_of_neg _ (by simp [closeById, ha]),
        List.find?_cons_of_neg _ (by simp [ha]), ih]

/-- C6: `Close` is idempotent — closing a position that is already
`closed` succeeds with no state change, no snapshot and no log entry; and
for any state, calling `Close` twice in a row yields the same terminal
state, snapshots and logs as calling it once. -/
theorem close_idempotent (st : EngineState) (id : Nat) (reason : String) :
    (∀ p, st.registry.find? (fun q => q.id == id) = some p →
        p.status = PositionStatus.closed →
        Close st id reason = (Except.ok (), st))
    ∧ (Close (Close st id reason).2 id reason).2 = (Close st id reason).2
    ∧ (Close (Close st id reason).2 id reason).2.snapshots
        = (Close st id reason).2.snapshots
    ∧ (Close (Close st id reason).2 id reason).2.logs
        = (Close st id reason).2.logs := by
  have hnoop : ∀ (s : EngineState) (p : ManagedPosition),
      s.registry.find? (fun q => q.id == id) = some p →
      p.status = PositionStatus.closed →
      Close s id reason = (Except.ok (), s) := by
    intro s p hp hc
    simp [Close, hp, hc]
  have hstate : (Close (Close st id reason).2 id reason).2
      = (Close st id reason).2 := by
    cases hf : st.registry.find? (fun p => p.id == id) with
    | none =>
      have h0 : Close st id reason
          = (Except.error EngineError.notFound, st) := by
        unfold Close; rw [hf]
      rw [h0]
      show (Close st id reason).2 = st
      rw [h0]
    | some p =>
      by_cases hc : p.status = PositionStatus.closed
      · rw [hnoop st p hf hc]
        show (Close st id reason).2 = st
        rw [hnoop st p hf hc]
      · have hid : p.id = id := by
          have := List.find?_some hf
          simpa using this
        have h1 : Close st id reason = (Except.ok (),
            { st with registry := st.registry.map (closeById id),
                      snapshots := st.snapshots ++ [closeSnapshot p],
                      logs := st.logs ++ ["manual_close:" ++ reason] }) := by
          simp [Close, hf, hc]
        rw [h1]
        have hf1 : ({ st with
            registry := st.registry.map (closeById id),
            snapshots := st.snapshots ++ [closeSnapshot p],
            logs := st.logs ++ ["manual_close:" ++ reason] }
              : EngineState).registry.find? (fun q => q.id == id)
            = some (closeById id p) := by
          show (st.registry.map (closeById id)).find? _ = _
          rw [find?_map_closeById, hf]
          rfl
        have hcl : (closeById id p).status = PositionStatus.closed := by
          simp [closeById, hid]
        rw [hnoop _ (closeById id p) hf1 hcl]
  exact ⟨fun p hp hc => hnoop st p hp hc, hstate,
    by rw [hstate], by rw [hstate]⟩

/-- An engine state holding one already-closed position with id 1. -/
def closedEngine : EngineState where
  registry := [{ scenarioPosition with status := PositionStatus.closed }]
  nextId := 2
  snapshots := []
  logs := []

/-- Witness for C6: closing the already-closed position 1 is a no-op
success. -/
theorem close_idempotent_witness :
    Close closedEngine 1 "manual" = (Except.ok (), closedEngine) :=
  (close_idempotent closedEngine 1 "manual").1
    { scenarioPosition with status := PositionStatus.closed }
    (by rfl) (by rfl)

/-- Modelled from the spec: the monitor loop's treatment of one registry
entry on a tick — closed positions are not evaluated, every other
position goes through one evaluate-and-act step (§4.2). -/
def tickPosition (cfg : RiskPolicyConfig) (t : TickInput)
    (p : ManagedPosition) : ManagedPosition :=
  if p.status = PositionStatus.closed then p else (evalStep cfg p t).1

/-- Modelled from the spec: the monitor tick's effect on the registry. -/
def monitorTickRegistry (cfg : RiskPolicyConfig) (t : TickInput)
    (st : EngineState) : EngineState :=
  { st with registry := st.registry.map (tickPosition cfg t) }

/-- The engine's mutating operations (§4.2): placement, a monitor tick,
manual close. -/
inductive EngineOp where
  | place (cfg : RiskPolicyConfig) (spec : PlaceSpec)
      (portfolioValue sectorExposure dayPLPct : ℚ) (cooldown : Option ℚ)
  | monitorTick (cfg : RiskPolicyConfig) (t : TickInput)
  | close (id : Nat) (reason : String)

/-- Applying one engine operation to the state. -/
def applyOp (st : EngineState) : EngineOp → EngineState
  | .place cfg spec pv sx day cd => (Place cfg st spec pv sx day cd).2
  | .monitorTick cfg t => monitorTickRegistry cfg t st
  | .close id reason => (Close st id reason).2

/-- The status edges the spec permits: stay put, open → partially_closed,
open → closed, partially_closed → closed (§3, §4.2). -/
def allowedTransition (a b : PositionStatus) : Prop :=
  a = b
  ∨ (a = PositionStatus.opened ∧ b = PositionStatus.partiallyClosed)
  ∨ (a = PositionStatus.opened ∧ b = PositionStatus.closed)
  ∨ (a = PositionStatus.partiallyClosed ∧ b = PositionStatus.closed)

/-- Staying put is an allowed transition. -/
theorem allowedTransition_refl (a : PositionStatus) :
    allowedTransition a a := Or.inl rfl

/-- Every status is reachable from `open` in one allowed step. -/
theorem allowedTransition_from_opened (b : PositionStatus) :
    allowedTransition PositionStatus.opened b := by
  cases b <;> simp [allowedTransition]

/-- Moving to `closed` is allowed from every status. -/
theorem allowedTransition_to_closed (a : PositionStatus) :
    allowedTransition a PositionStatus.closed := by
  cases a <;> simp [allowedTransition]

/-- `closed` is terminal in the allowed-transition relation. -/
theorem allowedTransition_closed_terminal (b : PositionStatus)
    (h : allowedTransition PositionStatus.closed b) :
    b = PositionStatus.closed := by
  cases b
  all_goals simp_all [allowedTransition]

/-- The only partial-exit fraction `Evaluate` ever emits is one half. -/
theorem evaluate_partial_fraction (cfg : RiskPolicyConfig)
    (p : ManagedPosition) (currentPrice portfolioValue : ℚ)
    (openPositions : Nat) (sectorExposure dayPLPct now : ℚ) (f : ℚ)
    (h : Evaluate cfg p currentPrice portfolioValue openPositions
      sectorExposure dayPLPct now = Decision.partialExit f) :
    f = 1/2 := by
  unfold Evaluate at h
  split_ifs at h <;> simp_all

/-- Acting on a non-partial decision keeps the status or closes the
position. -/
theorem applyDecision_status_cases (p : ManagedPosition) (d : Decision)
    (h : d.isPartialExit = false) :
    (applyDecision p d).status = p.status
    ∨ (applyDecision p d).status = PositionStatus.closed := by
  cases d with
  | hold => exact Or.inl rfl
  | blocked r => exact Or.inl rfl
  | fullExit r => exact Or.inr rfl
  | partialExit f => simp [Decision.isPartialExit] at h

/-- One evaluate-and-act step only moves a position's status along an
allowed edge. -/
theorem evalStep_allowed (cfg : RiskPolicyConfig) (t : TickInput)
    (p : ManagedPosition) :
    allowedTransition p.status (evalStep cfg p t).1.status := by
  by_cases hop : p.status = PositionStatus.opened
  · rw [hop]; exact allowedTransition_from_opened _
  · have hnp := evaluate_partial_requires_open cfg p t.price t.portfolioValue
      t.openPositions t.sectorExposure t.dayPLPct t.now hop
    simp only [evalStep]
    rcases applyDecision_status_cases
      { p with lastEvaluatedAt := some t.now, lastKnownPrice := some t.price }
      _ hnp with h | h
    · rw [h]; exact allowedTransition_refl _
    · rw [h]; exact allowedTransition_to_closed _

/-- A monitor tick moves each position's status only along an allowed
edge. -/
theorem tickPosition_allowed (cfg : RiskPolicyConfig) (t : TickInput)
    (p : ManagedPosition) :
    allowedTransition p.status (tickPosition cfg t p).status := by
  unfold tickPosition
  split_ifs with hc
  · exact allowedTransition_refl _
  · exact evalStep_allowed cfg t p

/-- A monitor tick never touches a closed position. -/
theorem tickPosition_status_closed (cfg : RiskPolicyConfig) (t : TickInput)
    (p : ManagedPosition) (h : p.status = PositionStatus.closed) :
    (tickPosition cfg t p).status = PositionStatus.closed := by
  simp [tickPosition, h]

/-- One evaluate-and-act step keeps the quantity positive while the
position stays unclosed. -/
theorem evalStep_quantity (cfg : RiskPolicyConfig) (t : TickInput)
    (p : ManagedPosition) (hq : 0 < p.quantity) :
    (evalStep cfg p t).1.status ≠ PositionStatus.closed →
      0 < (evalStep cfg p t).1.quantity := by
  intro h2
  simp only [evalStep] at h2 ⊢
  cases hd : Evaluate cfg p t.price t.portfolioValue t.openPositions
      t.sectorExposure t.dayPLPct t.now with
  | hold => exact hq
  | blocked r => exact hq
  | fullExit r => rw [hd] at h2; exact absurd rfl h2
  | partialExit f =>
    have hf : f = 1/2 :=
      evaluate_partial_fraction cfg p t.price t.portfolioValue
        t.openPositions t.sectorExposure t.dayPLPct t.now f hd
    subst hf
    show (0:ℚ) < p.quantity * (1 - 1/2)
    have h3 : (0:ℚ) < 1 - 1/2 := by norm_num
    exact mul_pos hq h3

/-- `tickPosition` preserves positivity of the quantity of unclosed
positions. -/
theorem tickPosition_quantity (cfg : RiskPolicyConfig) (t : TickInput)
    (p : ManagedPosition)
    (h : p.status ≠ PositionStatus.closed → 0 < p.quantity) :
    (tickPosition cfg t p).status ≠ PositionStatus.closed →
      0 < (tickPosition cfg t p).quantity := by
  unfold tickPosition
  split_ifs with hc
  · exact h
  · exact evalStep_quantity cfg t p (h hc)

/-- `closeById` moves the status only along an allowed edge. -/
theorem closeById_allowed (id : Nat) (q : ManagedPosition) :
    allowedTransition q.status (closeById id q).status := by
  unfold closeById
  split_ifs
  · exact allowedTransition_to_closed _
  · exact allowedTransition_refl _

/-- `closeById` keeps closed positions closed. -/
theorem closeById_status_closed (id : Nat) (q : ManagedPosition)
    (h : q.status = PositionStatus.closed) :
    (closeById id q).status = PositionStatus.closed := by
  unfold closeById
  split_ifs
  · rfl
  · exact h

/-- `closeById` preserves positivity of the quantity of unclosed
positions. -/
theorem closeById_quantity (id : Nat) (q : ManagedPosition)
    (h : q.status ≠ PositionStatus.closed → 0 < q.quantity) :
    (closeById id q).status ≠ PositionStatus.closed →
      0 < (closeById id q).quantity := by
  unfold closeById
  split_ifs with hid
  · intro h2; exact absurd rfl h2
  · exact h

/-- The registry-level contract one engine operation must satisfy:
existing positions only move along allowed status edges, closed stays
closed, any new position starts `open`, and `quantity > 0 whenever
status ≠ closed` is preserved. -/
def RegistryStep (old new : List ManagedPosition) : Prop :=
  (∀ i (hi : i < old.length) (hi' : i < new.length),
    allowedTransition (old[i]).status (new[i]).status)
  ∧ (∀ i (hi : i < old.length) (hi' : i < new.length),
    (old[i]).status = PositionStatus.closed →
      (new[i]).status = PositionStatus.closed)
  ∧ (∀ i (hi : old.length ≤ i) (hi' : i < new.length),
    (new[i]).status = PositionStatus.opened)
  ∧ ((∀ p ∈ old, p.status ≠ PositionStatus.closed → 0 < p.quantity) →
    ∀ p ∈ new, p.status ≠ PositionStatus.closed → 0 < p.quantity)

/-- An unchanged registry satisfies the registry contract. -/
theorem registryStep_refl (l : List ManagedPosition) : RegistryStep l l :=
  ⟨fun _ _ _ => allowedTransition_refl _,
   fun _ _ _ h => h,
   fun _ hi hi' => absurd hi' (by omega),
   fun h => h⟩

/-- A position-wise map satisfying the per-position contract satisfies
the registry contract. -/
theorem registryStep_map (l : List ManagedPosition)
    (f : ManagedPosition → ManagedPosition)
    (h1 : ∀ q, allowedTransition q.status (f q).status)
    (h2 : ∀ q, q.status = PositionStatus.closed →
      (f q).status = PositionStatus.closed)
    (h3 : ∀ q, (q.status ≠ PositionStatus.closed → 0 < q.quantity) →
      ((f q).status ≠ PositionStatus.closed → 0 < (f q).quantity)) :
    RegistryStep l (l.map f) := by
  refine ⟨?_, ?_, ?_, ?_⟩
  · intro i hi hi'
    rw [List.getElem_map]
    exact h1 _
  · intro i hi hi' h
    rw [List.getElem_map]
    exact h2 _ h
  · intro i hi hi'
    rw [List.length_map] at hi'
    omega
  · intro hass q hq
    rcases List.mem_map.mp hq with ⟨a, ha, rfl⟩
    exact h3 a (hass a ha)

/-- Appending one fresh open position with positive quantity satisfies
the registry contract. -/
theorem registryStep_append (l : List ManagedPosition)
    (p : ManagedPosition) (hs : p.status = PositionStatus.opened)
    (hq : 0 < p.quantity) : RegistryStep l (l ++ [p]) := by
  refine ⟨?_, ?_, ?_, ?_⟩
  · intro i hi hi'
    rw [List.getElem_append_left hi]
    exact allowedTransition_refl _
  · intro i hi hi' h
    rw [List.getElem_append_left hi]
    exact h
  · intro i hi hi'
    rw [List.length_append, List.length_singleton] at hi'
    have hieq : i = l.length := by omega
    subst hieq
    rw [List.getElem_append_right (by omega)]
    simpa using hs
  · intro hass q hq'
    rcases List.mem_append.mp hq' with h | h
    · exact hass q h
    · intro _
      rw [List.mem_singleton.mp h]
      exact hq

/-- `Place` either leaves the registry untouched or appends exactly one
fresh open position with positive quantity. -/
theorem place_registry_effect (cfg : RiskPolicyConfig) (st : EngineState)
    (spec : PlaceSpec) (portfolioValue sectorExposure dayPLPct : ℚ)
    (cooldown : Option ℚ) :
    (Place cfg st spec portfolioValue sectorExposure dayPLPct
      cooldown).2.registry = st.registry
    ∨ ∃ p : ManagedPosition,
        (Place cfg st spec portfolioValue sectorExposure dayPLPct
          cooldown).2.registry = st.registry ++ [p]
        ∧ p.status = PositionStatus.opened
        ∧ 0 < p.quantity := by
  unfold Place
  by_cases h1 : ¬ 0 < spec.quantity
  · rw [if_pos h1]
    exact Or.inl rfl
  · rw [if_neg h1]
    by_cases h2 : spec.symbol = ""
    · rw [if_pos h2]
      exact Or.inl rfl
    · rw [if_neg h2]
      cases hE : EvaluateEntry cfg
          ⟨spec.symbol, spec.sector, spec.quantity * spec.entryPrice⟩
          portfolioValue (openCount st) sectorExposure dayPLPct cooldown with
      | hold => exact Or.inr ⟨_, rfl, rfl, not_not.mp h1⟩
      | partialExit f => exact Or.inr ⟨_, rfl, rfl, not_not.mp h1⟩
      | fullExit r => exact Or.inr ⟨_, rfl, rfl, not_not.mp h1⟩
      | blocked r => exact Or.inl rfl

/-- `Close` either leaves the registry untouched or closes exactly the
positions carrying the requested id. -/
theorem close_registry_effect (st : EngineState) (id : Nat)
    (reason : String) :
    (Close st id reason).2.registry = st.registry
    ∨ (Close st id reason).2.registry
        = st.registry.map (closeById id) := by
  cases hf : st.registry.find? (fun p => p.id == id) with
  | none => left; simp [Close, hf]
  | some p =>
    by_cases hc : p.status = PositionStatus.closed
    · left; simp [Close, hf, hc]
    · right; simp [Close, hf, hc]

/-- C8: every engine operation — placement, a monitor tick acting on
`Evaluate` decisions, manual close — moves each position's status only
along open → partially_closed → closed or open → closed, keeps closed
positions closed (closed is terminal), creates new positions only with
status open, and preserves `quantity > 0` for every unclosed position. -/
theorem engine_status_machine (st : EngineState) (op : EngineOp) :
    RegistryStep st.registry (applyOp st op).registry := by
  cases op with
  | place cfg spec pv sx day cd =>
    rcases place_registry_effect cfg st spec pv sx day cd with
      heq | ⟨p, heq, hs, hq⟩
    · show RegistryStep st.registry (Place cfg st spec pv sx day cd).2.registry
      rw [heq]
      exact registryStep_refl _
    · show RegistryStep st.registry (Place cfg st spec pv sx day cd).2.registry
      rw [heq]
      exact registryStep_append _ _ hs hq
  | monitorTick cfg t =>
    show RegistryStep st.registry (st.registry.map (tickPosition cfg t))
    exact registryStep_map _ _ (tickPosition_allowed cfg t)
      (tickPosition_status_closed cfg t) (tickPosition_quantity cfg t)
  | close id reason =>
    rcases close_registry_effect st id reason with heq | heq
    · show RegistryStep st.registry (Close st id reason).2.registry
      rw [heq]
      exact registryStep_refl _
    · show RegistryStep st.registry (Close st id reason).2.registry
      rw [heq]
      exact registryStep_map _ _ (closeById_allowed id)
        (closeById_status_closed id) (closeById_quantity id)

/-- Witness for C8: closing the already-closed position of
`closedEngine` keeps its status on an allowed edge (closed stays
closed). -/
theorem engine_status_machine_witness :
    allowedTransition PositionStatus.closed PositionStatus.closed :=
  (engine_status_machine closedEngine (EngineOp.close 1 "manual")).1
    0 (by decide) (by decide)

/-- Modelled from the spec: the per-position collaborator calls a
monitor tick depends on — Gateway price fetch, Gateway exit execution,
store persistence — each fallible independently per position (§5, §6). -/
structure TickOracle where
  getPrice : ManagedPosition → Except String ℚ
  execExit : ManagedPosition → Decision → Except String Unit
  persist : ManagedPosition → Except String Unit

/-- The recorded outcome for one position in one monitor tick: either a
logged error with the position skipped for the cycle, or the decision
acted upon together with the persisted position. -/
inductive StepOutcome where
  | skipped (err : String)
  | acted (d : Decision) (p : ManagedPosition)
deriving DecidableEq, Repr

/-- Modelled from the spec: one position's processing inside a monitor
tick (§4.2): fetch the current price, evaluate, execute any exit
decision, persist the update; an error at any stage is recorded and the
position is skipped for this cycle. -/
def processPosition (cfg : RiskPolicyConfig) (env : TickInput)
    (o : TickOracle) (p : ManagedPosition) : StepOutcome :=
  match o.getPrice p with
  | Except.error e => StepOutcome.skipped e
  | Except.ok price =>
    let s := evalStep cfg p { env with price := price }
    match (if s.2.isFullExit || s.2.isPartialExit then
            o.execExit p s.2 else Except.ok ()) with
    | Except.error e => StepOutcome.skipped e
    | Except.ok _ =>
      match o.persist s.1 with
      | Except.error e => StepOutcome.skipped e
      | Except.ok _ => StepOutcome.acted s.2 s.1

/-- Modelled from the spec: a full monitor tick over the registry — each
position is processed in turn and a failure outcome for one position is
recorded while the loop continues with the rest (§4.2 partial-failure
isolation, §7). -/
def monitorTickRun (cfg : RiskPolicyConfig) (env : TickInput)
    (o : TickOracle) : List ManagedPosition → List (Nat × StepOutcome)
  | [] => []
  | p :: rest =>
    match processPosition cfg env o p with
    | StepOutcome.skipped e =>
        (p.id, StepOutcome.skipped e) :: monitorTickRun cfg env o rest
    | StepOutcome.acted d q =>
        (p.id, StepOutcome.acted d q) :: monitorTickRun cfg env o rest

/-- A monitor tick records exactly the per-position outcomes, in
order. -/
theorem monitorTickRun_eq_map (cfg : RiskPolicyConfig) (env : TickInput)
    (o : TickOracle) (ps : List ManagedPosition) :
    monitorTickRun cfg env o ps
      = ps.map (fun p => (p.id, processPosition cfg env o p)) := by
  induction ps with
  | nil => rfl
  | cons p rest ih =>
    cases h : processPosition cfg env o p with
    | skipped e => simp [monitorTickRun, h, ih]
    | acted d q => simp [monitorTickRun, h, ih]

/-- C7: in every monitor tick, every position of the cycle receives
exactly one outcome, computed from that position and its own collaborator
results alone; an error fetching one position's price is recorded as a
skipped outcome for that position while every other position of the same
tick is still processed — no per-position error aborts the loop. -/
theorem monitor_tick_isolates_failures (cfg : RiskPolicyConfig)
    (env : TickInput) (o : TickOracle) (ps : List ManagedPosition) :
    (monitorTickRun cfg env o ps).length = ps.length
    ∧ (∀ i (hi : i < ps.length)
        (hi' : i < (monitorTickRun cfg env o ps).length),
        (monitorTickRun cfg env o ps)[i]
          = ((ps[i]).id, processPosition cfg env o (ps[i])))
    ∧ (∀ i (hi : i < ps.length)
        (hi' : i < (monitorTickRun cfg env o ps).length) (e : String),
        o.getPrice (ps[i]) = Except.error e →
        (monitorTickRun cfg env o ps)[i]
          = ((ps[i]).id, StepOutcome.skipped e)) := by
  refine ⟨?_, ?_, ?_⟩
  · rw [monitorTickRun_eq_map, List.length_map]
  · intro i hi hi'
    revert hi'
    rw [monitorTickRun_eq_map]
    intro hi'
    rw [List.getElem_map]
  · intro i hi hi' e he
    revert hi'
    rw [monitorTickRun_eq_map]
    intro hi'
    rw [List.getElem_map]
    simp [processPosition, he]

/-- An oracle whose price fetch fails for every position. -/
def failingOracle : TickOracle where
  getPrice := fun _ => Except.error "network timeout"
  execExit := fun _ _ => Except.ok ()
  persist := fun _ => Except.ok ()

/-- A neutral tick environment. -/
def tickEnv0 : TickInput where
  price := 0
  portfolioValue := 0
  openPositions := 0
  sectorExposure := 0
  dayPLPct := 0
  now := 0

/-- Witness for C7: with a price fetch failing on both positions of a
two-position cycle, the first position's outcome is a skipped record and
the cycle still produces one outcome per position. -/
theorem monitor_tick_isolates_failures_witness :
    (monitorTickRun scenarioConfig tickEnv0 failingOracle
      [scenarioPosition, scenarioPosition]).length = 2
    ∧ (monitorTickRun scenarioConfig tickEnv0 failingOracle
        [scenarioPosition, scenarioPosition]).get ⟨0, by decide⟩
      = (1, StepOutcome.skipped "network timeout") :=
  ⟨by
    rw [(monitor_tick_isolates_failures scenarioConfig tickEnv0
      failingOracle [scenarioPosition, scenarioPosition]).1]
    rfl,
   (monitor_tick_isolates_failures scenarioConfig tickEnv0 failingOracle
      [scenarioPosition, scenarioPosition]).2.2 0 (by decide) (by decide)
      "network timeout" rfl⟩

/-- The configuration record built by `config.Load`
(src/unnamed/part_000). -/
structure Config where
  alpacaAPIKey : String
  alpacaSecretKey : String
  alpacaBaseURL : String
  alpacaPaper : Bool
  geminiAPIKey : String
  databasePath : String
  serverPort : String
  enableLogging : Bool
  logLevel : String
  dataRetentionDays : Nat
deriving DecidableEq, Repr

/-- `getEnvOrDefault` (src/unnamed/part_000): the process environment is
a total map where the empty string means unset, as with Go's
`os.Getenv`. -/
def getEnvOrDefault (env : String → String)
    (key defaultValue : String) : String :=
  if env key ≠ "" then env key else defaultValue

/-- Modelled from godotenv (third-party dependency of
src/unnamed/part_000): `godotenv.Load()` succeeds iff a readable `.env`
file is present in the working directory — modelled as `Option`
key-value content, `none` when no readable file exists — and on success
its entries become visible through the environment without overriding
variables that are already set. -/
def godotenvLoad (dotenvFile : Option (List (String × String)))
    (env : String → String) : Except String (String → String) :=
  match dotenvFile with
  | none => Except.error "open .env: no such file or directory"
  | some entries =>
      Except.ok (fun k =>
        if env k ≠ "" then env k else ((entries.lookup k).getD ""))

/-- `config.Load` (src/unnamed/part_000): returns an error as soon as
`godotenv.Load` fails, leaving the package-level `AppConfig` (threaded
here as `prior`) unassigned; otherwise builds the configuration from the
environment and assigns it. -/
def Load (dotenvFile : Option (List (String × String)))
    (env : String → String) (prior : Option Config) :
    Except String Unit × Option Config :=
  match godotenvLoad dotenvFile env with
  | Except.error e =>
      (Except.error ("error loading .env file: " ++ e), prior)
  | Except.ok env2 =>
    (Except.ok (),
      some
        { alpacaAPIKey := env2 "ALPACA_API_KEY"
          alpacaSecretKey := env2 "ALPACA_SECRET_KEY"
          alpacaBaseURL := getEnvOrDefault env2 "ALPACA_BASE_URL"
            "https://paper-api.alpaca.markets"
          alpacaPaper := getEnvOrDefault env2 "ALPACA_PAPER" "true" == "true"
          geminiAPIKey := env2 "GEMINI_API_KEY"
          databasePath := getEnvOrDefault env2 "DATABASE_PATH"
            "./data/prophet_trader.db"
          serverPort := getEnvOrDefault env2 "SERVER_PORT" "4534"
          enableLogging :=
            getEnvOrDefault env2 "ENABLE_LOGGING" "true" == "true"
          logLevel := getEnvOrDefault env2 "LOG_LEVEL" "info"
          dataRetentionDays := 90 })

/-- C9: `config.Load` fails whenever no readable `.env` file is present,
whatever the process environment already contains, and then leaves
`AppConfig` unassigned; it succeeds exactly when a `.env` file exists and
can be read, and only then assigns `AppConfig`. -/
theorem config_load_requires_dotenv :
    (∀ (env : String → String) (prior : Option Config),
      Load none env prior
        = (Except.error
            ("error loading .env file: open .env: no such file or directory"),
          prior))
    ∧ (∀ (dotenvFile : List (String × String)) (env : String → String)
        (prior : Option Config),
      ∃ c, Load (some dotenvFile) env prior = (Except.ok (), some c)) := by
  constructor
  · intro env prior
    rfl
  · intro dotenvFile env prior
    exact ⟨_, rfl⟩

/-- Time-frame units of the Alpaca market-data SDK. -/
inductive TimeFrameUnit where
  | Min
  | Hour
  | Day
  | Week
  | Month
deriving DecidableEq, Repr

/-- `marketdata.TimeFrame` of the Alpaca market-data SDK: a count of
units. -/
structure TimeFrame where
  n : Nat
  unit : TimeFrameUnit
deriving DecidableEq, Repr

/-- `marketdata.NewTimeFrame`. -/
def NewTimeFrame (n : Nat) (u : TimeFrameUnit) : TimeFrame := ⟨n, u⟩

/-- `marketdata.OneMin`. -/
def OneMin : TimeFrame := NewTimeFrame 1 TimeFrameUnit.Min

/-- `marketdata.OneHour`. -/
def OneHour : TimeFrame := NewTimeFrame 1 TimeFrameUnit.Hour

/-- `marketdata.OneDay`. -/
def OneDay : TimeFrame := NewTimeFrame 1 TimeFrameUnit.Day

/-- `marketdata.OneWeek`. -/
def OneWeek : TimeFrame := NewTimeFrame 1 TimeFrameUnit.Week

/-- `marketdata.OneMonth`. -/
def OneMonth : TimeFrame := NewTimeFrame 1 TimeFrameUnit.Month

/-- `parseTimeframe` (src/services/alpaca_data.go lines 171–195): the Go
switch, branch for branch; every unrecognized string falls through to
`marketdata.OneDay`. -/
def parseTimeframe (tf : String) : TimeFrame :=
  if tf = "1Min" then OneMin
  else if tf = "5Min" then NewTimeFrame 5 TimeFrameUnit.Min
  else if tf = "15Min" then NewTimeFrame 15 TimeFrameUnit.Min
  else if tf = "30Min" then NewTimeFrame 30 TimeFrameUnit.Min
  else if tf = "1Hour" then OneHour
  else if tf = "4Hour" then NewTimeFrame 4 TimeFrameUnit.Hour
  else if tf = "1Day" then OneDay
  else if tf = "1Week" then OneWeek
  else if tf = "1Month" then OneMonth
  else OneDay

/-- C10: `parseTimeframe` is total and never fails — each of the nine
recognized timeframe strings maps to its market-data timeframe, and
every other string, the empty string included, silently maps to the
one-day timeframe. -/
theorem parseTimeframe_total :
    parseTimeframe "1Min" = OneMin
    ∧ parseTimeframe "5Min" = NewTimeFrame 5 TimeFrameUnit.Min
    ∧ parseTimeframe "15Min" = NewTimeFrame 15 TimeFrameUnit.Min
    ∧ parseTimeframe "30Min" = NewTimeFrame 30 TimeFrameUnit.Min
    ∧ parseTimeframe "1Hour" = OneHour
    ∧ parseTimeframe "4Hour" = NewTimeFrame 4 TimeFrameUnit.Hour
    ∧ parseTimeframe "1Day" = OneDay
    ∧ parseTimeframe "1Week" = OneWeek
    ∧ parseTimeframe "1Month" = OneMonth
    ∧ ∀ tf : String,
        tf ∉ (["1Min", "5Min", "15Min", "30Min", "1Hour", "4Hour",
          "1Day", "1Week", "1Month"] : List String) →
        parseTimeframe tf = OneDay := by
  refine ⟨rfl, rfl, rfl, rfl, rfl, rfl, rfl, rfl, rfl, ?_⟩
  intro tf h
  simp only [List.mem_cons, List.not_mem_nil, or_false, not_or] at h
  obtain ⟨h1, h2, h3, h4, h5, h6, h7, h8, h9⟩ := h
  simp [parseTimeframe, h1, h2, h3, h4, h5, h6, h7, h8, h9]

/-- Witness for C10: the empty string is unrecognized and maps to the
one-day timeframe. -/
theorem parseTimeframe_total_witness : parseTimeframe "" = OneDay :=
  parseTimeframe_total.2.2.2.2.2.2.2.2.2 "" (by decide)

end Prophet
